import Mathlib

/-!
Shallow embedding of the statistical core of the validate_drp repository
(files src/python/lsst/validate/drp/calcSrd.py and src/python/lsst/validate/drp/util.py),
together with theorems settling the specification claims about it.

Modelling conventions.

Floating-point numbers are modelled by real numbers.  A value that may be
non-finite (NaN or infinity) is modelled by Option ℝ, with none standing
for a non-finite value; numpy's isfinite test becomes Option.isSome.
A numpy comparison against NaN is False, which the embedding encodes
explicitly where it matters (magInRange).

Python exceptions raised by a computation are modelled with Except:
an Except.error result stands for a raised exception.  Out-of-range list
indexing that would raise IndexError is modelled by the Option-valued
index operator.

np.random.shuffle is modelled by quantifying over every permutation of
the input list: theorems about getRandomDiff take the shuffled copy as an
argument together with the hypothesis that it is a permutation of the input.

The sort performed inside np.percentile and np.median is modelled with
List.insertionSort; any two sorting algorithms agree on a linearly
ordered type, so this choice is immaterial.
-/

/-- sphDist from calcSrd.py: great-circle distance on the unit sphere via
the haversine formula, inputs and output in radians. -/
noncomputable def sphDist (ra1 dec1 ra2 dec2 : ℝ) : ℝ :=
  let dra := ra1 - ra2
  let ddec := dec1 - dec2
  let a := Real.sin (ddec / 2) ^ 2 +
    Real.cos dec1 * Real.cos dec2 * Real.sin (dra / 2) ^ 2
  2 * Real.arcsin (Real.sqrt a)

/-- sphDist as evaluated on possibly non-finite (NaN) floating-point inputs:
numpy's sin, cos, arcsin and sqrt all propagate NaN, so the result is
non-finite as soon as any input is. -/
noncomputable def sphDistNan (ra1 dec1 ra2 dec2 : Option ℝ) : Option ℝ :=
  match ra1, dec1, ra2, dec2 with
  | some a, some b, some c, some d => some (sphDist a b c d)
  | _, _, _, _ => none

/-- The loop body of matchVisitComputeDistance at index pair (i, j): if the
visit identifiers agree and np.isfinite([...]).all() holds for the four
coordinates, the spherical distance is appended (some), otherwise
nothing (none).  Coordinates are Option ℝ (none = non-finite). -/
noncomputable def visitPairContribution (visit1 : List ℤ)
    (ra1 dec1 : List (Option ℝ)) (visit2 : List ℤ)
    (ra2 dec2 : List (Option ℝ)) (i j : ℕ) : Option ℝ :=
  if visit1.getD i 0 = visit2.getD j 0 then
    match ra1.getD i none, dec1.getD i none, ra2.getD j none, dec2.getD j none with
    | some r1, some d1, some r2, some d2 => some (sphDist r1 d1 r2 d2)
    | _, _, _, _ => none
  else none

/-- matchVisitComputeDistance from calcSrd.py: the nested loop over
i in range(len(visit_obj1)), j in range(len(visit_obj2)), appending the
contribution of each index pair. -/
noncomputable def matchVisitComputeDistance (visit1 : List ℤ)
    (ra1 dec1 : List (Option ℝ)) (visit2 : List ℤ)
    (ra2 dec2 : List (Option ℝ)) : List ℝ :=
  (List.range visit1.length).flatMap fun i =>
    (List.range visit2.length).filterMap fun j =>
      visitPairContribution visit1 ra1 dec1 visit2 ra2 dec2 i j

/-- arcminToRadians from calcSrd.py: np.deg2rad(arcmin/60). -/
noncomputable def arcminToRadians (arcmin : ℝ) : ℝ :=
  arcmin / 60 * (Real.pi / 180)

/-- radiansToMilliarcsec from calcSrd.py: np.rad2deg(rad)*3600*1000. -/
noncomputable def radiansToMilliarcsec (rad : ℝ) : ℝ :=
  rad * (180 / Real.pi) * 3600 * 1000

/-- getRandomDiff from calcSrd.py, applied to the already shuffled copy of
the input array (the shuffle itself is modelled by quantifying over
permutations).  The two element accesses copy[0] and copy[1] are modelled
with the Option-valued index operator, so an out-of-range access (IndexError
in Python) yields none instead of a value. -/
def getRandomDiff (copy : List ℝ) : Option ℝ :=
  match copy[0]?, copy[1]? with
  | some a, some b => some (a - b)
  | _, _ => none

/-- constructDataIds from util.py builds one dict per visit/ccd combination;
the dict {'visit': v, 'filter': filter, ccdKeyName: c} is modelled as this
record (the call sites always use a ccd key name distinct from the two
fixed keys). -/
structure DataId where
  visit : ℤ
  filter : String
  ccdKey : String
  ccd : ℤ
  deriving DecidableEq, Repr

/-- constructDataIds from util.py: the comprehension iterates visits in the
outer loop and ccds in the inner loop. -/
def constructDataIds (filter : String) (visits : List ℤ) (ccds : List ℤ)
    (ccdKeyName : String := "ccd") : List DataId :=
  visits.flatMap fun v => ccds.map fun c => ⟨v, filter, ccdKeyName, c⟩

/-- The ascending sort performed inside np.percentile and np.median. -/
noncomputable def npSort (a : List ℝ) : List ℝ :=
  List.insertionSort (fun x y => x ≤ y) a

/-- np.percentile with the default linear interpolation: sort ascending,
take position pos = q/100*(n-1) and interpolate linearly between the order
statistics at floor(pos) and floor(pos)+1; the upper index is clipped at the
last element, which the getD default realizes. -/
noncomputable def npPercentile (a : List ℝ) (q : ℝ) : ℝ :=
  let s := npSort a
  let pos := q / 100 * ((s.length : ℝ) - 1)
  let i := (⌊pos⌋).toNat
  let x0 := s.getD i 0
  let x1 := s.getD (i + 1) x0
  x0 + (pos - ((⌊pos⌋ : ℤ) : ℝ)) * (x1 - x0)

/-- Result of calcPA2: the three outlier thresholds in millimags (the PF1
outlier fractions 20/10/5 percent are fixed in the source). -/
structure PA2Result where
  design : ℝ
  minimum : ℝ
  stretch : ℝ

/-- calcPA2 from calcSrd.py, parametrized by the per-group random pair
differences diffs (the output of groupView.aggregate(getRandomDiffRmsInMas)):
the thresholds are the 100-20, 100-10 and 100-5 percentiles of abs(diffs),
assigned in the order minimum, design, stretch. -/
noncomputable def calcPA2 (diffs : List ℝ) : PA2Result :=
  let absDiffs := diffs.map fun d => |d|
  { minimum := npPercentile absDiffs (100 - 20)
    design := npPercentile absDiffs (100 - 10)
    stretch := npPercentile absDiffs (100 - 5) }

/-- np.mean as a NaN-aware float: the mean of an empty array is NaN
(modelled as none), otherwise sum/length. -/
noncomputable def npMeanNan (xs : List ℝ) : Option ℝ :=
  if xs.isEmpty then none else some (xs.sum / xs.length)

/-- math.sqrt on a NaN-aware float: NaN propagates (the arguments fed to it
in this code are means of squares, hence non-negative when finite). -/
noncomputable def sqrtNan (x : Option ℝ) : Option ℝ :=
  x.map Real.sqrt

/-- np.percentile on a possibly empty array: percentiles of an empty array
cannot be produced by indexing into it, so numpy raises; modelled as an
Except.error.  On non-empty input it is the linear-interpolation
percentile. -/
noncomputable def npPercentileChecked (xs : List ℝ) (q : ℝ) : Except String ℝ :=
  if xs.isEmpty then Except.error "attempt to take a percentile of an empty array"
  else Except.ok (npPercentile xs q)

/-- Cumulative distribution function of the standard normal distribution. -/
noncomputable def stdNormCdf (x : ℝ) : ℝ :=
  MeasureTheory.integral (MeasureTheory.volume.restrict (Set.Iic x))
    fun t => Real.exp (-(t ^ 2) / 2) / Real.sqrt (2 * Real.pi)

/-- scipy.stats.norm.ppf, the standard-normal inverse CDF (quantile
function), modelled as the generalized inverse of stdNormCdf. -/
noncomputable def normPpf (p : ℝ) : ℝ :=
  sInf {x : ℝ | p ≤ stdNormCdf x}

/-- computeWidths from calcSrd.py.  rmsSigma = math.sqrt(np.mean(array**2))
is computed first (NaN on empty input); then
iqrSigma = np.subtract.reduce(np.percentile(array, [75, 25])) / (ppf(0.75)*2),
whose percentile raises on an empty array, aborting the call.  The result
is the (rms, iqr) pair, each a NaN-aware float. -/
noncomputable def computeWidths (array : List ℝ) : Except String (Option ℝ × Option ℝ) :=
  let rmsSigma := sqrtNan (npMeanNan (array.map fun x => x ^ 2))
  match npPercentileChecked array 75, npPercentileChecked array 25 with
  | Except.ok p75, Except.ok p25 =>
      Except.ok (rmsSigma, some ((p75 - p25) / (normPpf 0.75 * 2)))
  | Except.error e, _ => Except.error e
  | Except.ok _, Except.error e => Except.error e

/-- The rms width as the specification states it: the square root of the
mean of the squared elements. -/
noncomputable def specRms (xs : List ℝ) : ℝ :=
  Real.sqrt ((xs.map fun x => x ^ 2).sum / xs.length)

/-- The scaled interquartile range as the specification states it:
(P75 - P25) / (2 * Phi-inverse(0.75)). -/
noncomputable def specScaledIqr (xs : List ℝ) : ℝ :=
  (npPercentile xs 75 - npPercentile xs 25) / (2 * normPpf 0.75)

/-- All index pairs (i, j) with i < n1, j < n2, in the nested-loop order of
the source (i outer, j inner). -/
def crossIndexPairs (n1 n2 : ℕ) : List (ℕ × ℕ) :=
  (List.range n1).flatMap fun i => (List.range n2).map fun j => (i, j)

/-- The selection condition of matchVisitComputeDistance, as the claim
states it: equal visit identifiers and all four coordinates finite. -/
def visitMatchFiniteB (v1 : List ℤ) (ra1 dec1 : List (Option ℝ)) (v2 : List ℤ)
    (ra2 dec2 : List (Option ℝ)) (p : ℕ × ℕ) : Bool :=
  decide (v1.getD p.1 0 = v2.getD p.2 0) && (ra1.getD p.1 none).isSome &&
    (dec1.getD p.1 none).isSome && (ra2.getD p.2 none).isSome &&
    (dec2.getD p.2 none).isSome

/-- The distance contributed by the index pair p: sphDist of the four
coordinates (which the selection condition guarantees to be finite). -/
noncomputable def pairDist (ra1 dec1 ra2 dec2 : List (Option ℝ)) (p : ℕ × ℕ) : ℝ :=
  sphDist ((ra1.getD p.1 none).getD 0) ((dec1.getD p.1 none).getD 0)
    ((ra2.getD p.2 none).getD 0) ((dec2.getD p.2 none).getD 0)

/-- One visit measurement of one matched object, with the fields calcAMx
extracts from the schema: visit identifier, sky coordinates (radians,
possibly non-finite) and the PSF magnitude (possibly non-finite). -/
structure SourceRecord where
  visit : ℤ
  coordRa : Option ℝ
  coordDec : Option ℝ
  psfMag : Option ℝ

/-- The finite entries of a float array (mag[np.where(np.isfinite(mag))]). -/
def finiteVals (xs : List (Option ℝ)) : List ℝ :=
  xs.filterMap id

/-- np.median: sort ascending and take the middle element, or the average
of the two middle elements for even length. -/
noncomputable def npMedian (xs : List ℝ) : ℝ :=
  let s := npSort xs
  if 2 ∣ s.length then (s.getD (s.length / 2 - 1) 0 + s.getD (s.length / 2) 0) / 2
  else s.getD (s.length / 2) 0

/-- The magInRange closure of calcSrd.py calcAMx: the median of the finite
entries of the base_PsfFlux_mag column must satisfy
magRange[0] <= medianMag and medianMag < magRange[1].  When the group has
no finite magnitude np.median returns NaN and both comparisons are False
in numpy; the first conjunct encodes that. -/
noncomputable def magInRange (magRange : ℝ × ℝ) (cat : List SourceRecord) : Prop :=
  let mag := cat.map fun r => r.psfMag
  finiteVals mag ≠ [] ∧ magRange.1 ≤ npMedian (finiteVals mag) ∧
    npMedian (finiteVals mag) < magRange.2

open Classical in
/-- groupView.where(magInRange): the groups surviving the magnitude cut. -/
noncomputable def groupsInMagRange (magRange : ℝ × ℝ)
    (groupView : List (List SourceRecord)) : List (List SourceRecord) :=
  groupView.filter fun g => decide (magInRange magRange g)

/-- The median of a group's finite magnitudes, as the specification
describes it: none when the group has no finite magnitude. -/
noncomputable def medianFiniteMag (cat : List SourceRecord) : Option ℝ :=
  let w := finiteVals (cat.map fun r => r.psfMag)
  if w.isEmpty then none else some (npMedian w)

/-- The annulus membership test of calcAMx:
(annulusRadians[0] <= dist) & (dist < annulusRadians[1]). -/
def annulusContains (lo hi d : ℝ) : Prop :=
  lo ≤ d ∧ d < hi

/-- np.std with the default ddof=0: the square root of the mean squared
deviation from the mean. -/
noncomputable def npStd (xs : List ℝ) : ℝ :=
  Real.sqrt ((xs.map fun x => (x - xs.sum / xs.length) ^ 2).sum / xs.length)

/-- The body of the inner loop of calcAMx for the index pair (obj1, obj2):
compute the shared-visit distances of the two groups; if the list is empty,
skip (the source prints a diagnostic and continues); otherwise every entry
is finite in the real-number model, so the np.isfinite screen keeps them
all and np.std of the distances is appended. -/
noncomputable def amxSample (visit : List (List ℤ)) (ra dec : List (List (Option ℝ)))
    (obj1 obj2 : ℕ) : Option ℝ :=
  let distances := matchVisitComputeDistance (visit.getD obj1 []) (ra.getD obj1 [])
    (dec.getD obj1 []) (visit.getD obj2 []) (ra.getD obj2 []) (dec.getD obj2 [])
  if distances.isEmpty then none
  else some (npStd distances)

open Classical in
/-- The rmsDistances loop of calcAMx.  For each obj1, the vectorized
sphDist call compares obj1 with the tail meanRa[obj1+1:], meanDec[obj1+1:],
so the annulus test at offset k concerns the pair (obj1, obj1+1+k);
np.where returns the offsets k of the matches, and the source then uses
each offset directly as the absolute index obj2 into visit, ra and dec. -/
noncomputable def rmsDistancesList (meanRa meanDec : List ℝ)
    (visit : List (List ℤ)) (ra dec : List (List (Option ℝ))) (lo hi : ℝ) : List ℝ :=
  (List.range meanRa.length).flatMap fun obj1 =>
    ((List.range (meanRa.length - (obj1 + 1))).filter fun k =>
      decide (annulusContains lo hi
        (sphDist (meanRa.getD obj1 0) (meanDec.getD obj1 0)
          (meanRa.getD (obj1 + 1 + k) 0) (meanDec.getD (obj1 + 1 + k) 0)))).filterMap
      fun obj2 => amxSample visit ra dec obj1 obj2

/-- Result of calcAMx: the samples in milliarcseconds, the fiducial
distance D, the annulus bounds in arcmin and the magnitude range used. -/
structure AMxResult where
  AMx : List ℝ
  D : ℝ
  annulus : ℝ × ℝ
  magRange : ℝ × ℝ

/-- calcAMx from calcSrd.py.  The groupView is the list of object groups;
the per-object mean positions come from the external coordinate-averaging
routine (averageRaFromCat / averageDecFromCat), passed here as the opaque
functions avgRa and avgDec.  A missing magRange argument (None) defaults to
[17.0, 21.5].  The ra, dec and visit column lists are the slices of the
flattened matchKeyOutput at key indices 1 (coord_ra), 2 (coord_dec) and
4 (visit). -/
noncomputable def calcAMx (groupView : List (List SourceRecord))
    (avgRa avgDec : List SourceRecord → ℝ) (D width : ℝ)
    (magRange : Option (ℝ × ℝ)) : AMxResult :=
  let mr := magRange.getD (17.0, 21.5)
  let inRange := groupsInMagRange mr groupView
  let ra := inRange.map fun g => g.map fun r => r.coordRa
  let dec := inRange.map fun g => g.map fun r => r.coordDec
  let visit := inRange.map fun g => g.map fun r => r.visit
  let meanRa := inRange.map avgRa
  let meanDec := inRange.map avgDec
  let annulusLo := D + width / 2 * (-1)
  let annulusHi := D + width / 2 * 1
  let rmsDistances := rmsDistancesList meanRa meanDec visit ra dec
    (arcminToRadians annulusLo) (arcminToRadians annulusHi)
  { AMx := rmsDistances.map radiansToMilliarcsec
    D := D
    annulus := (annulusLo, annulusHi)
    magRange := mr }

/-- The sample the claim prescribes for a pair of object groups: the RMS
(square root of the mean of the squares) of their shared-visit spherical
distances, converted to milliarcseconds. -/
noncomputable def specRmsSampleMas (g1 g2 : List SourceRecord) : ℝ :=
  radiansToMilliarcsec (specRms (matchVisitComputeDistance
    (g1.map fun r => r.visit) (g1.map fun r => r.coordRa) (g1.map fun r => r.coordDec)
    (g2.map fun r => r.visit) (g2.map fun r => r.coordRa) (g2.map fun r => r.coordDec)))

/-- A record observed in visit v at right ascension r on the equator, with
magnitude 18 (inside the default magnitude range of calcAMx). -/
noncomputable def exRec (v : ℤ) (r : ℝ) : SourceRecord :=
  ⟨v, some r, some 0, some 18⟩

/-- An object at right ascension 0 seen in visits 1 and 2. -/
noncomputable def exG0 : List SourceRecord := [exRec 1 0, exRec 2 0]

/-- An object 5 arcmin away on the equator, seen in the same two visits. -/
noncomputable def exG2 : List SourceRecord :=
  [exRec 1 (Real.pi / 2160), exRec 2 (Real.pi / 2160)]

/-- Three objects: numbers 0 and 1 coincide, number 2 is 5 arcmin away, so
with D = 5 and width = 2 exactly the pairs (0,2) and (1,2) lie in the
annulus. -/
noncomputable def exGroups : List (List SourceRecord) := [exG0, exG0, exG2]

/-- A concrete instance of the external coordinate averaging used by
calcAMx: every group in the example has the same position in all its
visits, so any correct spherical average returns that position; this
instance reads it off the first finite coordinate. -/
noncomputable def exAvgRa (g : List SourceRecord) : ℝ :=
  (finiteVals (g.map fun r => r.coordRa)).headD 0

/-- Companion of exAvgRa for the declination. -/
noncomputable def exAvgDec (g : List SourceRecord) : ℝ :=
  (finiteVals (g.map fun r => r.coordDec)).headD 0

/-- The haversine expression vanishes on identical points. -/
theorem sphDist_same (ra dec : ℝ) : sphDist ra dec ra dec = 0 := by
  simp [sphDist]

/-- sphDist is non-negative (arcsin of a square root is non-negative). -/
theorem sphDist_nonneg (ra1 dec1 ra2 dec2 : ℝ) : 0 ≤ sphDist ra1 dec1 ra2 dec2 := by
  simp only [sphDist]
  have h : 0 ≤ Real.arcsin (Real.sqrt (Real.sin ((dec1 - dec2) / 2) ^ 2 +
      Real.cos dec1 * Real.cos dec2 * Real.sin ((ra1 - ra2) / 2) ^ 2)) :=
    Real.arcsin_nonneg.mpr (Real.sqrt_nonneg _)
  linarith

/-- sphDist is symmetric in its two points. -/
theorem sphDist_comm (ra1 dec1 ra2 dec2 : ℝ) :
    sphDist ra1 dec1 ra2 dec2 = sphDist ra2 dec2 ra1 dec1 := by
  simp only [sphDist]
  have h1 : Real.sin ((dec1 - dec2) / 2) ^ 2 = Real.sin ((dec2 - dec1) / 2) ^ 2 := by
    rw [show (dec1 - dec2) / 2 = -((dec2 - dec1) / 2) by ring, Real.sin_neg, neg_sq]
  have h2 : Real.sin ((ra1 - ra2) / 2) ^ 2 = Real.sin ((ra2 - ra1) / 2) ^ 2 := by
    rw [show (ra1 - ra2) / 2 = -((ra2 - ra1) / 2) by ring, Real.sin_neg, neg_sq]
  rw [h1, h2, mul_comm (Real.cos dec1) (Real.cos dec2)]

/-- On the equator, sphDist between right ascensions 0 and s is exactly s. -/
theorem sphDist_equator (s : ℝ) (h0 : 0 ≤ s) (hpi : s ≤ Real.pi) :
    sphDist 0 0 s 0 = s := by
  simp only [sphDist]
  have hs2 : Real.sin ((0 - s) / 2) ^ 2 = Real.sin (s / 2) ^ 2 := by
    rw [show (0 - s) / 2 = -(s / 2) by ring, Real.sin_neg, neg_sq]
  have hnn : 0 ≤ Real.sin (s / 2) := by
    apply Real.sin_nonneg_of_nonneg_of_le_pi (by linarith)
    linarith [Real.pi_pos]
  have hsqrt : Real.sqrt (Real.sin ((0 - 0) / 2) ^ 2 +
      Real.cos 0 * Real.cos 0 * Real.sin ((0 - s) / 2) ^ 2) = Real.sin (s / 2) := by
    rw [hs2]
    simp [Real.sqrt_sq_eq_abs, abs_of_nonneg hnn]
  simp only [hsqrt]
  rw [Real.arcsin_sin (by linarith [Real.pi_pos]) (by linarith)]
  ring

/-- C6: for all finite inputs sphDist is non-negative, vanishes on identical
points and is symmetric; on floating-point inputs it propagates NaN: if any
of the four inputs is non-finite, so is the result. -/
theorem sphDist_props (ra1 dec1 ra2 dec2 : ℝ) (o1 o2 o3 o4 : Option ℝ) :
    0 ≤ sphDist ra1 dec1 ra2 dec2 ∧
    sphDist ra1 dec1 ra1 dec1 = 0 ∧
    sphDist ra1 dec1 ra2 dec2 = sphDist ra2 dec2 ra1 dec1 ∧
    sphDistNan none o2 o3 o4 = none ∧
    sphDistNan o1 none o3 o4 = none ∧
    sphDistNan o1 o2 none o4 = none ∧
    sphDistNan o1 o2 o3 none = none := by
  refine ⟨sphDist_nonneg _ _ _ _, sphDist_same _ _, sphDist_comm _ _ _ _, ?_, ?_, ?_, ?_⟩
  · cases o2 <;> cases o3 <;> cases o4 <;> rfl
  · cases o1 <;> cases o3 <;> cases o4 <;> rfl
  · cases o1 <;> cases o2 <;> cases o4 <;> rfl
  · cases o1 <;> cases o2 <;> cases o3 <;> rfl

/-- C7: on a two-element array, getRandomDiff returns the difference of the
two elements in one of the two orders, whatever permutation the shuffle
produced; in particular it never draws the same element twice. -/
theorem getRandomDiff_two_elements (a b : ℝ) (c : List ℝ) (h : c.Perm [a, b]) :
    getRandomDiff c = some (a - b) ∨ getRandomDiff c = some (b - a) := by
  have hlen : c.length = 2 := by simpa using h.length_eq
  match c, hlen with
  | [x, y], _ =>
    have hx : x = a ∨ x = b := by
      have hm : x ∈ [a, b] := h.mem_iff.mp (by simp)
      simpa using hm
    rcases hx with h1 | h1
    · left
      rw [h1] at h
      have h2 : y = b := by
        have h3 : [y].Perm [b] := h.cons_inv
        simpa [List.perm_singleton] using h3
      rw [h1, h2]
      rfl
    · right
      rw [h1] at h
      have h2 : y = a := by
        have h3 : [y].Perm [a] := (h.trans (List.Perm.swap b a [])).cons_inv
        simpa [List.perm_singleton] using h3
      rw [h1, h2]
      rfl

/-- C7 witness: identity shuffle of the pair (1, 2). -/
theorem getRandomDiff_two_elements_witness :
    ([(1 : ℝ), 2].Perm [1, 2]) ∧
    (getRandomDiff [(1 : ℝ), 2] = some (1 - 2) ∨
      getRandomDiff [(1 : ℝ), 2] = some (2 - 1)) :=
  ⟨List.Perm.refl _, getRandomDiff_two_elements 1 2 [1, 2] (List.Perm.refl _)⟩

/-- C8: on a one-element array, getRandomDiff fails (out-of-range access to
the second shuffled element, an IndexError in Python, modelled as none)
instead of returning a numeric value. -/
theorem getRandomDiff_singleton (x : ℝ) (c : List ℝ) (h : c.Perm [x]) :
    getRandomDiff c = none := by
  have : c = [x] := List.perm_singleton.mp h
  subst this
  rfl

/-- C8 witness: the singleton array [7]. -/
theorem getRandomDiff_singleton_witness :
    ([(7 : ℝ)].Perm [7]) ∧ getRandomDiff [(7 : ℝ)] = none :=
  ⟨List.Perm.refl _, getRandomDiff_singleton 7 [7] (List.Perm.refl _)⟩

/-- C9: constructDataIds returns one dataId per visit/ccd combination:
the length is len(visits) * len(ccds), an element is in the output exactly
when its fields combine a listed visit and a listed ccd with the requested
filter and ccd key, and the concrete call with filter r, visits [100, 200]
and ccds [10, 11] yields the four tagged combinations. -/
theorem constructDataIds_spec (f : String) (V C : List ℤ) (k : String) :
    (constructDataIds f V C k).length = V.length * C.length ∧
    (∀ d : DataId, d ∈ constructDataIds f V C k ↔
      d.visit ∈ V ∧ d.ccd ∈ C ∧ d.filter = f ∧ d.ccdKey = k) ∧
    constructDataIds "r" [100, 200] [10, 11] =
      [⟨100, "r", "ccd", 10⟩, ⟨100, "r", "ccd", 11⟩,
       ⟨200, "r", "ccd", 10⟩, ⟨200, "r", "ccd", 11⟩] := by
  refine ⟨?_, ?_, by decide⟩
  · simp [constructDataIds]
    induction V with
    | nil => simp
    | cons v vs ih => simp [ih, Nat.succ_mul, Nat.add_comm]
  · intro d
    constructor
    · intro hd
      simp only [constructDataIds, List.mem_flatMap, List.mem_map] at hd
      obtain ⟨v, hv, c, hc, rfl⟩ := hd
      exact ⟨hv, hc, rfl, rfl⟩
    · rintro ⟨hv, hc, hf, hk⟩
      simp only [constructDataIds, List.mem_flatMap, List.mem_map]
      exact ⟨d.visit, hv, d.ccd, hc, by cases d; simp_all⟩

theorem npSort_sorted (a : List ℝ) : (npSort a).Sorted (fun x y => x ≤ y) :=
  List.sorted_insertionSort _ a

theorem npSort_length (a : List ℝ) : (npSort a).length = a.length :=
  List.length_insertionSort _ a

theorem npSort_ne_nil {a : List ℝ} (ha : a ≠ []) : npSort a ≠ [] := by
  intro h
  apply ha
  have hl := npSort_length a
  rw [h] at hl
  exact List.length_eq_zero.mp hl.symm

theorem sorted_getD_mono {s : List ℝ} (hs : s.Sorted (fun x y => x ≤ y)) {i j : ℕ}
    (hij : i ≤ j) (hj : j < s.length) : s.getD i 0 ≤ s.getD j 0 := by
  have hi : i < s.length := Nat.lt_of_le_of_lt hij hj
  rw [List.getD_eq_get _ _ hi, List.getD_eq_get _ _ hj]
  exact hs.rel_get_of_le (a := ⟨i, hi⟩) (b := ⟨j, hj⟩) hij

/-- Monotonicity of the linear-interpolation step of np.percentile over a
sorted list, in the interpolation position. -/
theorem interp_mono (s : List ℝ) (hs : s.Sorted (fun x y => x ≤ y)) (hn : s ≠ [])
    {p1 p2 : ℝ} (h0 : 0 ≤ p1) (h12 : p1 ≤ p2) (hub : p2 ≤ (s.length : ℝ) - 1) :
    s.getD (⌊p1⌋).toNat 0 + (p1 - ((⌊p1⌋ : ℤ) : ℝ)) *
        (s.getD ((⌊p1⌋).toNat + 1) (s.getD (⌊p1⌋).toNat 0) - s.getD (⌊p1⌋).toNat 0) ≤
      s.getD (⌊p2⌋).toNat 0 + (p2 - ((⌊p2⌋ : ℤ) : ℝ)) *
        (s.getD ((⌊p2⌋).toNat + 1) (s.getD (⌊p2⌋).toNat 0) - s.getD (⌊p2⌋).toNat 0) := by
  have h02 : 0 ≤ p2 := le_trans h0 h12
  have hf1 : (0 : ℤ) ≤ ⌊p1⌋ := Int.floor_nonneg.mpr h0
  have hf2 : (0 : ℤ) ≤ ⌊p2⌋ := Int.floor_nonneg.mpr h02
  have hc1 : (((⌊p1⌋).toNat : ℕ) : ℝ) = ((⌊p1⌋ : ℤ) : ℝ) := by
    exact_mod_cast congrArg (fun z : ℤ => (z : ℝ)) (Int.toNat_of_nonneg hf1)
  have hc2 : (((⌊p2⌋).toNat : ℕ) : ℝ) = ((⌊p2⌋ : ℤ) : ℝ) := by
    exact_mod_cast congrArg (fun z : ℤ => (z : ℝ)) (Int.toNat_of_nonneg hf2)
  have hg1a : ((⌊p1⌋ : ℤ) : ℝ) ≤ p1 := Int.floor_le p1
  have hg1b : p1 < ((⌊p1⌋ : ℤ) : ℝ) + 1 := Int.lt_floor_add_one p1
  have hg2a : ((⌊p2⌋ : ℤ) : ℝ) ≤ p2 := Int.floor_le p2
  have hg2b : p2 < ((⌊p2⌋ : ℤ) : ℝ) + 1 := Int.lt_floor_add_one p2
  have hi2lt : (⌊p2⌋).toNat < s.length := by
    have hr : (((⌊p2⌋).toNat : ℕ) : ℝ) < (s.length : ℝ) := by
      rw [hc2]; linarith
    exact_mod_cast hr
  have hi12 : (⌊p1⌋).toNat ≤ (⌊p2⌋).toNat :=
    Int.toNat_le_toNat (Int.floor_mono h12)
  rcases Nat.lt_or_ge (⌊p1⌋).toNat (⌊p2⌋).toNat with hlt | hge
  · -- distinct interpolation cells: chain through the order statistics
    have hi11 : (⌊p1⌋).toNat + 1 ≤ (⌊p2⌋).toNat := hlt
    have hi11lt : (⌊p1⌋).toNat + 1 < s.length := Nat.lt_of_le_of_lt hi11 hi2lt
    have hi1lt : (⌊p1⌋).toNat < s.length := Nat.lt_of_succ_lt hi11lt
    have hx1rw : s.getD ((⌊p1⌋).toNat + 1) (s.getD (⌊p1⌋).toNat 0) =
        s.getD ((⌊p1⌋).toNat + 1) 0 := by
      rw [List.getD_eq_getElem _ _ hi11lt, List.getD_eq_getElem _ _ hi11lt]
    have hx01 : s.getD (⌊p1⌋).toNat 0 ≤ s.getD ((⌊p1⌋).toNat + 1) 0 :=
      sorted_getD_mono hs (Nat.le_succ _) hi11lt
    have hchain : s.getD ((⌊p1⌋).toNat + 1) 0 ≤ s.getD (⌊p2⌋).toNat 0 :=
      sorted_getD_mono hs hi11 hi2lt
    have hx02 : s.getD (⌊p2⌋).toNat 0 ≤ s.getD ((⌊p2⌋).toNat + 1) (s.getD (⌊p2⌋).toNat 0) := by
      rcases Nat.lt_or_ge ((⌊p2⌋).toNat + 1) s.length with h2lt | h2ge
      · rw [List.getD_eq_getElem _ _ h2lt, ← List.getD_eq_getElem (d := 0) _ h2lt]
        exact sorted_getD_mono hs (Nat.le_succ _) h2lt
      · rw [List.getD_eq_default _ _ h2ge]
    have hg1 : p1 - ((⌊p1⌋ : ℤ) : ℝ) ≤ 1 := by linarith
    have hg1nn : 0 ≤ p1 - ((⌊p1⌋ : ℤ) : ℝ) := by linarith
    have hg2nn : 0 ≤ p2 - ((⌊p2⌋ : ℤ) : ℝ) := by linarith
    rw [hx1rw]
    nlinarith [mul_nonneg hg2nn (sub_nonneg.mpr hx02),
      mul_nonneg (sub_nonneg.mpr hg1) (sub_nonneg.mpr hx01)]
  · -- same interpolation cell
    have heq : (⌊p1⌋).toNat = (⌊p2⌋).toNat := Nat.le_antisymm hi12 hge
    have hfr : ((⌊p1⌋ : ℤ) : ℝ) = ((⌊p2⌋ : ℤ) : ℝ) := by
      rw [← hc1, ← hc2, heq]
    have hx02 : s.getD (⌊p2⌋).toNat 0 ≤ s.getD ((⌊p2⌋).toNat + 1) (s.getD (⌊p2⌋).toNat 0) := by
      rcases Nat.lt_or_ge ((⌊p2⌋).toNat + 1) s.length with h2lt | h2ge
      · rw [List.getD_eq_getElem _ _ h2lt, ← List.getD_eq_getElem (d := 0) _ h2lt]
        exact sorted_getD_mono hs (Nat.le_succ _) h2lt
      · rw [List.getD_eq_default _ _ h2ge]
    rw [heq, hfr]
    nlinarith [sub_nonneg.mpr hx02]

/-- np.percentile is monotone in the percentile argument on [0, 100]. -/
theorem npPercentile_mono (a : List ℝ) (ha : a ≠ []) {q1 q2 : ℝ}
    (h0 : 0 ≤ q1) (h12 : q1 ≤ q2) (h100 : q2 ≤ 100) :
    npPercentile a q1 ≤ npPercentile a q2 := by
  have hlen : 0 < (npSort a).length := List.length_pos.mpr (npSort_ne_nil ha)
  have hlen1 : (0 : ℝ) ≤ ((npSort a).length : ℝ) - 1 := by
    have : (1 : ℝ) ≤ ((npSort a).length : ℝ) := by exact_mod_cast hlen
    linarith
  simp only [npPercentile]
  apply interp_mono (npSort a) (npSort_sorted a) (npSort_ne_nil ha)
  · exact mul_nonneg (div_nonneg h0 (by norm_num)) hlen1
  · exact mul_le_mul_of_nonneg_right
      ((div_le_div_right (by norm_num : (0:ℝ) < 100)).mpr h12) hlen1
  · calc q2 / 100 * (((npSort a).length : ℝ) - 1)
        ≤ 1 * (((npSort a).length : ℝ) - 1) :=
          mul_le_mul_of_nonneg_right ((div_le_one (by norm_num)).mpr h100) hlen1
      _ = ((npSort a).length : ℝ) - 1 := one_mul _

theorem npSort_pair : npSort [(0 : ℝ), 100] = [0, 100] := by
  norm_num [npSort, List.insertionSort, List.orderedInsert]

theorem npPercentile_pair (q : ℝ) (h0 : 0 ≤ q) (h1 : q < 100) :
    npPercentile [(0 : ℝ), 100] q = q := by
  simp only [npPercentile, npSort_pair]
  have hpos : q / 100 * ((([(0:ℝ), 100]).length : ℝ) - 1) = q / 100 := by
    norm_num
  rw [hpos]
  have hfloor : ⌊q / 100⌋ = 0 := by
    rw [Int.floor_eq_zero_iff]
    exact ⟨by positivity, by rw [div_lt_one (by norm_num)]; simpa using h1⟩
  rw [hfloor]
  norm_num

/-- C2 counterexample: at diffs = [0, 100] the thresholds are
minimum = 80, design = 90, stretch = 95, so the ordering claimed by the
spec (stretch ≤ design ≤ minimum) is false. -/
theorem calcPA2_claim_counterexample :
    ¬ ((calcPA2 [0, 100]).stretch ≤ (calcPA2 [0, 100]).design ∧
       (calcPA2 [0, 100]).design ≤ (calcPA2 [0, 100]).minimum) := by
  have habs : ([0, 100] : List ℝ).map (fun d => |d|) = [0, 100] := by
    norm_num
  simp only [calcPA2, habs]
  rw [show ((100 : ℝ) - 5) = 95 by norm_num, show ((100 : ℝ) - 10) = 90 by norm_num,
    show ((100 : ℝ) - 20) = 80 by norm_num]
  rw [npPercentile_pair 95 (by norm_num) (by norm_num),
    npPercentile_pair 90 (by norm_num) (by norm_num),
    npPercentile_pair 80 (by norm_num) (by norm_num)]
  norm_num

/-- C2 (amended): for every non-empty diffs array the calcPA2 thresholds are
monotone in the opposite direction, minimum ≤ design ≤ stretch, because the
outlier fractions 20 > 10 > 5 percent give increasing percentiles
80 < 90 < 95 of abs(diffs). -/
theorem calcPA2_thresholds_monotone (diffs : List ℝ) (h : diffs ≠ []) :
    (calcPA2 diffs).minimum ≤ (calcPA2 diffs).design ∧
    (calcPA2 diffs).design ≤ (calcPA2 diffs).stretch := by
  have habs : diffs.map (fun d => |d|) ≠ [] := by
    simpa using h
  constructor
  · simp only [calcPA2]
    exact npPercentile_mono _ habs (by norm_num) (by norm_num) (by norm_num)
  · simp only [calcPA2]
    exact npPercentile_mono _ habs (by norm_num) (by norm_num) (by norm_num)

/-- C2 witness: the amended monotonicity at the concrete diffs array [5]. -/
theorem calcPA2_thresholds_monotone_witness :
    ([(5 : ℝ)] ≠ []) ∧
    ((calcPA2 [(5 : ℝ)]).minimum ≤ (calcPA2 [(5 : ℝ)]).design ∧
      (calcPA2 [(5 : ℝ)]).design ≤ (calcPA2 [(5 : ℝ)]).stretch) :=
  ⟨by simp, calcPA2_thresholds_monotone [5] (by simp)⟩

/-- C3 counterexample: on the empty array computeWidths does not return a
NaN pair; the percentile computation raises, so the whole call fails. -/
theorem computeWidths_empty_raises :
    ∃ e, computeWidths [] = Except.error e :=
  ⟨"attempt to take a percentile of an empty array", rfl⟩

/-- C3 (amended): on every non-empty array computeWidths succeeds and
returns exactly the pair (sqrt of the mean of squares, scaled IQR with the
standard-normal rescaling); on the empty array it fails with an error
instead of propagating NaN (only the rms subterm would be NaN there). -/
theorem computeWidths_formulas (array : List ℝ) (h : array ≠ []) :
    computeWidths array = Except.ok (some (specRms array), some (specScaledIqr array)) := by
  have hne : array.isEmpty = false := by
    simpa using h
  have hmapne : (array.map fun x => x ^ 2).isEmpty = false := by
    simpa using h
  simp only [computeWidths, npPercentileChecked, npMeanNan, sqrtNan, hne, hmapne,
    Bool.false_eq_true, if_false, Option.map_some, List.length_map, specRms, specScaledIqr]
  rw [mul_comm (normPpf 0.75) 2]
  rfl

/-- C3 witness: the amended formulas at the concrete array [3]. -/
theorem computeWidths_formulas_witness :
    (([(3 : ℝ)] : List ℝ) ≠ []) ∧
    computeWidths [(3 : ℝ)] =
      Except.ok (some (specRms [(3 : ℝ)]), some (specScaledIqr [(3 : ℝ)])) :=
  ⟨by simp, computeWidths_formulas [3] (by simp)⟩

theorem visitPairContribution_eq_if (v1 : List ℤ) (ra1 dec1 : List (Option ℝ))
    (v2 : List ℤ) (ra2 dec2 : List (Option ℝ)) (i j : ℕ) :
    visitPairContribution v1 ra1 dec1 v2 ra2 dec2 i j =
      if visitMatchFiniteB v1 ra1 dec1 v2 ra2 dec2 (i, j) = true
      then some (pairDist ra1 dec1 ra2 dec2 (i, j)) else none := by
  simp only [visitPairContribution, visitMatchFiniteB, pairDist,
    List.getD_eq_getElem?_getD]
  by_cases hv : v1[i]?.getD 0 = v2[j]?.getD 0
  · cases hra1 : ra1[i]?.getD none <;> cases hdec1 : dec1[i]?.getD none <;>
      cases hra2 : ra2[j]?.getD none <;> cases hdec2 : dec2[j]?.getD none <;>
      simp [hv, hra1, hdec1, hra2, hdec2]
  · simp [hv]

theorem filterMap_inner_eq (v1 : List ℤ) (ra1 dec1 : List (Option ℝ)) (v2 : List ℤ)
    (ra2 dec2 : List (Option ℝ)) (i : ℕ) (l : List ℕ) :
    (l.filterMap fun j => visitPairContribution v1 ra1 dec1 v2 ra2 dec2 i j) =
    ((l.map fun j => (i, j)).filter (visitMatchFiniteB v1 ra1 dec1 v2 ra2 dec2)).map
      (pairDist ra1 dec1 ra2 dec2) := by
  induction l with
  | nil => rfl
  | cons j t ih =>
    simp only [visitPairContribution_eq_if] at ih ⊢
    simp only [List.filterMap_cons, List.map_cons, List.filter_cons]
    by_cases hb : visitMatchFiniteB v1 ra1 dec1 v2 ra2 dec2 (i, j) = true
    · simp [hb, ih]
    · simp [hb, ih]

theorem mem_crossIndexPairs {n1 n2 : ℕ} {p : ℕ × ℕ} :
    p ∈ crossIndexPairs n1 n2 ↔ p.1 < n1 ∧ p.2 < n2 := by
  constructor
  · intro hp
    simp only [crossIndexPairs, List.mem_flatMap, List.mem_map, List.mem_range] at hp
    obtain ⟨i, hi, j, hj, rfl⟩ := hp
    exact ⟨hi, hj⟩
  · intro ⟨h1, h2⟩
    simp only [crossIndexPairs, List.mem_flatMap, List.mem_map, List.mem_range]
    exact ⟨p.1, h1, p.2, h2, rfl⟩

/-- C4: matchVisitComputeDistance produces exactly one distance, namely
sphDist of the four coordinates, for each index pair with equal visit
identifiers and all four coordinates finite (in nested-loop order); pairs
with a non-finite coordinate contribute nothing, and if the two visit lists
share no identifier the result is the empty list, not an error. -/
theorem matchVisitComputeDistance_spec (v1 : List ℤ) (ra1 dec1 : List (Option ℝ))
    (v2 : List ℤ) (ra2 dec2 : List (Option ℝ)) :
    (matchVisitComputeDistance v1 ra1 dec1 v2 ra2 dec2 =
      ((crossIndexPairs v1.length v2.length).filter
        (visitMatchFiniteB v1 ra1 dec1 v2 ra2 dec2)).map (pairDist ra1 dec1 ra2 dec2)) ∧
    ((∀ i j, i < v1.length → j < v2.length → v1.getD i 0 ≠ v2.getD j 0) →
      matchVisitComputeDistance v1 ra1 dec1 v2 ra2 dec2 = []) := by
  have hmain : matchVisitComputeDistance v1 ra1 dec1 v2 ra2 dec2 =
      ((crossIndexPairs v1.length v2.length).filter
        (visitMatchFiniteB v1 ra1 dec1 v2 ra2 dec2)).map (pairDist ra1 dec1 ra2 dec2) := by
    simp only [matchVisitComputeDistance, crossIndexPairs]
    induction List.range v1.length with
    | nil => rfl
    | cons i t ih =>
      simp only [filterMap_inner_eq] at ih ⊢
      simp only [List.flatMap_cons, List.filter_append, List.map_append, ih]
  refine ⟨hmain, fun hdisj => ?_⟩
  rw [hmain]
  have hfil : (crossIndexPairs v1.length v2.length).filter
      (visitMatchFiniteB v1 ra1 dec1 v2 ra2 dec2) = [] := by
    apply List.filter_eq_nil_iff.mpr
    intro p hp
    obtain ⟨h1, h2⟩ := mem_crossIndexPairs.mp hp
    have hne := hdisj p.1 p.2 h1 h2
    simp only [List.getD_eq_getElem?_getD] at hne
    simp [visitMatchFiniteB, List.getD_eq_getElem?_getD, hne]
  rw [hfil]
  rfl

/-- C4 witness: two single-visit objects observed on different visits share
no visit, so the distance list is empty. -/
theorem matchVisitComputeDistance_spec_witness :
    (∀ i j, i < ([(1 : ℤ)]).length → j < ([(2 : ℤ)]).length →
      ([(1 : ℤ)]).getD i 0 ≠ ([(2 : ℤ)]).getD j 0) ∧
    matchVisitComputeDistance [(1 : ℤ)] [some 0] [some 0] [(2 : ℤ)] [some 0] [some 0] = [] := by
  have hdisj : ∀ i j, i < ([(1 : ℤ)]).length → j < ([(2 : ℤ)]).length →
      ([(1 : ℤ)]).getD i 0 ≠ ([(2 : ℤ)]).getD j 0 := by
    intro i j hi hj
    have hi0 : i = 0 := by simp at hi; omega
    have hj0 : j = 0 := by simp at hj; omega
    subst hi0; subst hj0
    decide
  exact ⟨hdisj,
    (matchVisitComputeDistance_spec [(1 : ℤ)] [some 0] [some 0] [(2 : ℤ)]
      [some 0] [some 0]).2 hdisj⟩

open Classical in
/-- C5: a group survives the magnitude cut of calcAMx exactly when the
median of its finite per-visit magnitudes exists and lies in the half-open
interval [magRange[0], magRange[1]) (lower bound included, upper bound
excluded); and a call without a magRange argument uses the default bounds
17.0 and 21.5. -/
theorem calcAMx_magRange_filter (mr : ℝ × ℝ) (groupView : List (List SourceRecord))
    (g : List SourceRecord) (avgRa avgDec : List SourceRecord → ℝ) (D w : ℝ) :
    (g ∈ groupsInMagRange mr groupView ↔
      g ∈ groupView ∧ ∃ m, medianFiniteMag g = some m ∧ mr.1 ≤ m ∧ m < mr.2) ∧
    (calcAMx groupView avgRa avgDec D w none).magRange = (17.0, 21.5) := by
  constructor
  · rw [groupsInMagRange, List.mem_filter]
    constructor
    · rintro ⟨hg, hd⟩
      have hP : magInRange mr g := of_decide_eq_true hd
      simp only [magInRange] at hP
      obtain ⟨hne, h1, h2⟩ := hP
      refine ⟨hg, npMedian (finiteVals (g.map fun r => r.psfMag)), ?_, h1, h2⟩
      have hw : (finiteVals (g.map fun r => r.psfMag)).isEmpty = false := by
        simpa using hne
      simp [medianFiniteMag, hw]
    · rintro ⟨hg, m, hm, h1, h2⟩
      refine ⟨hg, decide_eq_true ?_⟩
      simp only [medianFiniteMag] at hm
      by_cases hw : (finiteVals (g.map fun r => r.psfMag)).isEmpty
      · simp [hw] at hm
      · simp only [hw, Bool.false_eq_true, if_false, Option.some.injEq] at hm
        simp only [magInRange]
        refine ⟨by simpa using hw, ?_, ?_⟩
        · rw [hm]; exact h1
        · rw [hm]; exact h2
  · rfl

/-- C10: the annulus membership test of calcAMx is half-open: with the
bounds annulus = D + width/2*[-1, +1] converted from arcmin to radians, a
separation d is selected exactly when
arcminToRadians(D - width/2) <= d < arcminToRadians(D + width/2); a
separation equal to the upper bound is excluded, and one equal to the
lower bound is included (for positive width). -/
theorem annulus_test_half_open (D w d : ℝ) (hw : 0 < w) :
    (annulusContains (arcminToRadians (D + w / 2 * (-1)))
        (arcminToRadians (D + w / 2 * 1)) d ↔
      (arcminToRadians (D - w / 2) ≤ d ∧ d < arcminToRadians (D + w / 2))) ∧
    ¬ annulusContains (arcminToRadians (D + w / 2 * (-1)))
        (arcminToRadians (D + w / 2 * 1)) (arcminToRadians (D + w / 2)) ∧
    annulusContains (arcminToRadians (D + w / 2 * (-1)))
        (arcminToRadians (D + w / 2 * 1)) (arcminToRadians (D - w / 2)) := by
  have heq1 : D + w / 2 * (-1) = D - w / 2 := by ring
  have heq2 : D + w / 2 * 1 = D + w / 2 := by ring
  rw [heq1, heq2]
  have hmono : arcminToRadians (D - w / 2) < arcminToRadians (D + w / 2) := by
    simp only [arcminToRadians]
    nlinarith [Real.pi_pos]
  refine ⟨Iff.rfl, ?_, ?_⟩
  · rintro ⟨h1, h2⟩
    exact absurd h2 (lt_irrefl _)
  · exact ⟨le_refl _, hmono⟩

/-- C10 witness: the boundary behavior at D = 5 arcmin, width = 2 arcmin. -/
theorem annulus_test_half_open_witness :
    (0 : ℝ) < 2 ∧
    ((annulusContains (arcminToRadians (5 + 2 / 2 * (-1)))
        (arcminToRadians (5 + 2 / 2 * 1)) 0 ↔
      (arcminToRadians (5 - 2 / 2) ≤ 0 ∧ (0 : ℝ) < arcminToRadians (5 + 2 / 2))) ∧
    ¬ annulusContains (arcminToRadians (5 + 2 / 2 * (-1)))
        (arcminToRadians (5 + 2 / 2 * 1)) (arcminToRadians (5 + 2 / 2)) ∧
    annulusContains (arcminToRadians (5 + 2 / 2 * (-1)))
        (arcminToRadians (5 + 2 / 2 * 1)) (arcminToRadians (5 - 2 / 2))) :=
  ⟨by norm_num, annulus_test_half_open 5 2 0 (by norm_num)⟩

theorem npMedian_pair_same (x : ℝ) : npMedian [x, x] = x := by
  have hsort : npSort [x, x] = [x, x] := by
    simp [npSort, List.insertionSort, List.orderedInsert]
  simp [npMedian, hsort]

theorem npStd_pair_same (x : ℝ) : npStd [x, x] = 0 := by
  have h : (([x, x].map fun y => (y - [x, x].sum / ([x, x].length : ℝ)) ^ 2).sum /
      (([x, x].length : ℝ)) : ℝ) = 0 := by
    simp
  simp only [npStd, h, Real.sqrt_zero]

theorem specRms_pair_same (x : ℝ) (hx : 0 ≤ x) : specRms [x, x] = x := by
  have h : (([x, x].map fun y => y ^ 2).sum / (([x, x].length : ℝ)) : ℝ) = x ^ 2 := by
    simp
  simp only [specRms, h]
  exact Real.sqrt_sq hx

theorem matchVisit_two_common (r1 r2 : ℝ) :
    matchVisitComputeDistance [1, 2] [some r1, some r1] [some 0, some 0]
      [1, 2] [some r2, some r2] [some 0, some 0] =
    [sphDist r1 0 r2 0, sphDist r1 0 r2 0] := by
  simp [matchVisitComputeDistance, visitPairContribution,
    (show List.range 2 = [0, 1] from rfl)]

theorem radiansToMilliarcsec_5arcmin : radiansToMilliarcsec (Real.pi / 2160) = 300000 := by
  simp only [radiansToMilliarcsec]
  have hpi := Real.pi_ne_zero
  field_simp
  ring

theorem exAvg_exG0_ra : exAvgRa exG0 = 0 := by
  simp [exAvgRa, exG0, exRec, finiteVals]

theorem exAvg_exG2_ra : exAvgRa exG2 = Real.pi / 2160 := by
  simp [exAvgRa, exG2, exRec, finiteVals]

theorem exAvg_exG0_dec : exAvgDec exG0 = 0 := by
  simp [exAvgDec, exG0, exRec, finiteVals]

theorem exAvg_exG2_dec : exAvgDec exG2 = 0 := by
  simp [exAvgDec, exG2, exRec, finiteVals]

theorem exG0_magInRange : magInRange ((17.0 : ℝ), (21.5 : ℝ)) exG0 := by
  have hfv : finiteVals (exG0.map fun r => r.psfMag) = [18, 18] := by
    simp [exG0, exRec, finiteVals]
  simp only [magInRange, hfv, npMedian_pair_same]
  refine ⟨by simp, by norm_num, by norm_num⟩

theorem exG2_magInRange : magInRange ((17.0 : ℝ), (21.5 : ℝ)) exG2 := by
  have hfv : finiteVals (exG2.map fun r => r.psfMag) = [18, 18] := by
    simp [exG2, exRec, finiteVals]
  simp only [magInRange, hfv, npMedian_pair_same]
  refine ⟨by simp, by norm_num, by norm_num⟩

open Classical in
theorem exGroups_filter : groupsInMagRange ((17.0 : ℝ), (21.5 : ℝ)) exGroups = exGroups := by
  simp [groupsInMagRange, exGroups, exG0_magInRange, exG2_magInRange]

theorem annulus_facts :
    ¬ annulusContains (Real.pi / 2700) (Real.pi / 1800) 0 ∧
    annulusContains (Real.pi / 2700) (Real.pi / 1800) (Real.pi / 2160) := by
  have hpi := Real.pi_pos
  refine ⟨?_, ?_, ?_⟩
  · rintro ⟨h1, _⟩
    nlinarith
  · rw [div_le_div_iff (by norm_num) (by norm_num)]
    nlinarith
  · rw [div_lt_div_iff (by norm_num) (by norm_num)]
    nlinarith

theorem matchVisit_00 :
    matchVisitComputeDistance [1, 2] [some 0, some 0] [some 0, some 0]
      [1, 2] [some 0, some 0] [some 0, some 0] = [0, 0] := by
  rw [matchVisit_two_common 0 0, sphDist_same]

theorem sphDist_5arcmin : sphDist 0 0 (Real.pi / 2160) 0 = Real.pi / 2160 := by
  have hpi := Real.pi_pos
  exact sphDist_equator _ (by positivity) (div_le_self hpi.le (by norm_num))

open Classical in
theorem rmsDistances_ex :
    rmsDistancesList [0, 0, Real.pi / 2160] [0, 0, 0]
      [[1, 2], [1, 2], [1, 2]]
      [[some 0, some 0], [some 0, some 0],
        [some (Real.pi / 2160), some (Real.pi / 2160)]]
      [[some 0, some 0], [some 0, some 0], [some 0, some 0]]
      (Real.pi / 2700) (Real.pi / 1800) = [0, 0] := by
  have hbfalse : (decide (annulusContains (Real.pi / 2700) (Real.pi / 1800) (0 : ℝ))) =
      false := decide_eq_false annulus_facts.1
  have hbtrue : (decide (annulusContains (Real.pi / 2700) (Real.pi / 1800)
      (Real.pi / 2160))) = true := decide_eq_true annulus_facts.2
  simp only [rmsDistancesList, amxSample, List.length_cons, List.length_nil]
  norm_num
  simp only [show List.range 3 = [0, 1, 2] from rfl, show List.range 2 = [0, 1] from rfl,
    show List.range 1 = [0] from rfl, show List.range 0 = ([] : List ℕ) from rfl]
  simp only [List.flatMap_cons, List.flatMap_nil, List.filter_cons, List.filter_nil,
    List.getD_cons_zero, List.getD_cons_succ]
  norm_num [sphDist_same, sphDist_5arcmin, hbtrue, hbfalse, matchVisit_00,
    npStd_pair_same]
  simp only [show List.range 2 = [0, 1] from rfl, show List.range 1 = [0] from rfl,
    List.filter_cons, List.filter_nil]
  norm_num [sphDist_same, sphDist_5arcmin, hbtrue, hbfalse]
  simp [matchVisit_00, npStd_pair_same]

/-- C1 (code bug): in the example, the magnitude filter keeps all three
objects, and exactly the pairs (0,2) and (1,2) have an in-annulus
mean separation (5 arcmin with D = 5, width = 2), with visits 1 and 2
shared; the claim prescribes for each of them a sample equal to the RMS of
the shared-visit distances, 300000 mas.  The code instead uses the
slice-relative offsets returned by np.where (1 for obj1 = 0 and 0 for
obj1 = 1) as absolute indices, computes np.std of the distances between
the two coincident objects 0 and 1, and returns [0, 0]: no output sample
equals the prescribed one. -/
theorem calcAMx_annulus_index_bug :
    annulusContains (arcminToRadians (5 + 2 / 2 * (-1))) (arcminToRadians (5 + 2 / 2 * 1))
      (sphDist (exAvgRa exG0) (exAvgDec exG0) (exAvgRa exG2) (exAvgDec exG2)) ∧
    matchVisitComputeDistance (exG0.map fun r => r.visit) (exG0.map fun r => r.coordRa)
      (exG0.map fun r => r.coordDec) (exG2.map fun r => r.visit)
      (exG2.map fun r => r.coordRa) (exG2.map fun r => r.coordDec) ≠ [] ∧
    (calcAMx exGroups exAvgRa exAvgDec 5 2 none).AMx = [0, 0] ∧
    specRmsSampleMas exG0 exG2 = 300000 ∧
    specRmsSampleMas exG0 exG2 ∉ (calcAMx exGroups exAvgRa exAvgDec 5 2 none).AMx := by
  have hlo : arcminToRadians (5 + 2 / 2 * (-1)) = Real.pi / 2700 := by
    rw [arcminToRadians]; ring
  have hhi : arcminToRadians (5 + 2 / 2 * 1) = Real.pi / 1800 := by
    rw [arcminToRadians]; ring
  have hmeanRa : exGroups.map exAvgRa = [0, 0, Real.pi / 2160] := by
    simp [exGroups, exAvg_exG0_ra, exAvg_exG2_ra]
  have hmeanDec : exGroups.map exAvgDec = [0, 0, 0] := by
    simp [exGroups, exAvg_exG0_dec, exAvg_exG2_dec]
  have hvis : exGroups.map (fun g => g.map fun r => r.visit) =
      [[1, 2], [1, 2], [1, 2]] := by
    simp [exGroups, exG0, exG2, exRec]
  have hras : exGroups.map (fun g => g.map fun r => r.coordRa) =
      [[some 0, some 0], [some 0, some 0],
        [some (Real.pi / 2160), some (Real.pi / 2160)]] := by
    simp [exGroups, exG0, exG2, exRec]
  have hdecs : exGroups.map (fun g => g.map fun r => r.coordDec) =
      [[some 0, some 0], [some 0, some 0], [some 0, some 0]] := by
    simp [exGroups, exG0, exG2, exRec]
  have hAMx : (calcAMx exGroups exAvgRa exAvgDec 5 2 none).AMx = [0, 0] := by
    simp only [calcAMx, Option.getD_none, exGroups_filter, hmeanRa, hmeanDec, hvis,
      hras, hdecs, hlo, hhi, rmsDistances_ex]
    simp [radiansToMilliarcsec]
  have hspec : specRmsSampleMas exG0 exG2 = 300000 := by
    have hmaps : specRmsSampleMas exG0 exG2 = radiansToMilliarcsec (specRms
        (matchVisitComputeDistance [1, 2] [some 0, some 0] [some 0, some 0]
          [1, 2] [some (Real.pi / 2160), some (Real.pi / 2160)] [some 0, some 0])) := by
      simp [specRmsSampleMas, exG0, exG2, exRec]
    rw [hmaps, matchVisit_two_common 0 (Real.pi / 2160), sphDist_5arcmin,
      specRms_pair_same _ (by positivity), radiansToMilliarcsec_5arcmin]
  have hann : annulusContains (arcminToRadians (5 + 2 / 2 * (-1)))
      (arcminToRadians (5 + 2 / 2 * 1))
      (sphDist (exAvgRa exG0) (exAvgDec exG0) (exAvgRa exG2) (exAvgDec exG2)) := by
    rw [hlo, hhi, exAvg_exG0_ra, exAvg_exG0_dec, exAvg_exG2_ra, exAvg_exG2_dec,
      sphDist_5arcmin]
    exact annulus_facts.2
  have hshared : matchVisitComputeDistance (exG0.map fun r => r.visit)
      (exG0.map fun r => r.coordRa) (exG0.map fun r => r.coordDec)
      (exG2.map fun r => r.visit) (exG2.map fun r => r.coordRa)
      (exG2.map fun r => r.coordDec) ≠ [] := by
    have hcols : matchVisitComputeDistance (exG0.map fun r => r.visit)
        (exG0.map fun r => r.coordRa) (exG0.map fun r => r.coordDec)
        (exG2.map fun r => r.visit) (exG2.map fun r => r.coordRa)
        (exG2.map fun r => r.coordDec) =
        matchVisitComputeDistance [1, 2] [some 0, some 0] [some 0, some 0]
          [1, 2] [some (Real.pi / 2160), some (Real.pi / 2160)] [some 0, some 0] := by
      simp [exG0, exG2, exRec]
    rw [hcols, matchVisit_two_common 0 (Real.pi / 2160)]
    simp
  refine ⟨hann, hshared, hAMx, hspec, ?_⟩
  rw [hAMx, hspec]
  intro hmem
  have hpi := Real.pi_pos
  simp at hmem
